import Mathlib

/-!
Verification of the `rediscache` refresh-coordination protocol
(`src/rediscache/__init__.py`), shallowly embedded in Lean 4.

The Redis keyspace is modelled as an association list of string keys to
string values (newest binding first); the store operations GET / SET /
SET-NX / INCR / DEL are modelled after the Redis semantics the module
relies on.  Every embedded operation additionally records the trace of
store commands it issues, so that claims about which commands are (or
are never) issued on a given key can be stated.

Time-to-live arguments are recorded in the trace (they are what the code
passes to the store) but do not age the modelled store: no wall-clock
time passes inside a single invocation except in the polling wait loop,
which is modelled against an externally evolving sequence of store
snapshots, one per one-second sleep tick.
-/

/-- The Redis keyspace: an association list, newest binding first. -/
def Store := List (String × String)

/-- GET: first binding for the key, if any. -/
def Store.get : Store → String → Option String
  | [], _ => none
  | (k', v) :: s, k => if k' = k then some v else Store.get s k

/-- SET: unconditional write (shadows any older binding). -/
def Store.set (s : Store) (k v : String) : Store := (k, v) :: s

/-- DEL: remove every binding for the key. -/
def Store.del : Store → String → Store
  | [], _ => []
  | (k', v) :: s, k => if k' = k then Store.del s k else (k', v) :: Store.del s k

/-- Redis INCR arithmetic on the stored decimal string: absent counts as 0. -/
def incrStr (o : Option String) : String :=
  toString ((o.bind String.toNat?).getD 0 + 1)

/-- INCR: atomic increment, creating the counter at 0 if absent. -/
def Store.incr (s : Store) (k : String) : Store := s.set k (incrStr (s.get k))

theorem Store.get_set (s : Store) (k v k' : String) :
    (s.set k v).get k' = if k = k' then some v else s.get k' := rfl

theorem Store.get_set_same (s : Store) (k v : String) :
    (s.set k v).get k = some v := by simp [Store.get_set]

theorem Store.get_set_ne (s : Store) (k v k' : String) (h : k ≠ k') :
    (s.set k v).get k' = s.get k' := by simp [Store.get_set, h]

theorem Store.get_del (s : Store) (k k' : String) :
    (s.del k).get k' = if k' = k then none else s.get k' := by
  induction s with
  | nil => simp [Store.del, Store.get]
  | cons p s ih =>
    obtain ⟨a, b⟩ := p
    by_cases hak : a = k <;> by_cases hak' : a = k'
    · subst hak; subst hak'; simp [Store.del, Store.get, ih]
    · subst hak; simp [Store.del, Store.get, hak', ih]
    · subst hak'; simp [Store.del, Store.get, hak, ih]
    · simp [Store.del, Store.get, hak, hak', ih]

theorem Store.get_incr_same (s : Store) (k : String) :
    (s.incr k).get k = some (incrStr (s.get k)) := by
  simp [Store.incr, Store.get_set_same]

theorem Store.get_incr_ne (s : Store) (k k' : String) (h : k ≠ k') :
    (s.incr k).get k' = s.get k' := by
  simp [Store.incr, Store.get_set_ne _ _ _ _ h]

/-- A store command, as issued by the coordinator, with the arguments the
source passes to the Redis client.  `setnx` is SET with `nx=True` (the
conditional set used as admission gate); its last field records whether
the write happened. -/
inductive Op where
  | get (k : String)
  | set (k : String) (v : String) (ttl : Option Nat)
  | setnx (k : String) (v : String) (ttl : Nat) (ok : Bool)
  | incr (k : String)
  | del (k : String)
deriving DecidableEq, Repr

/-- The key a store command operates on. -/
def Op.key : Op → String
  | .get k => k
  | .set k _ _ => k
  | .setnx k _ _ _ => k
  | .incr k => k
  | .del k => k

def Op.isDel : Op → Bool
  | .del _ => true
  | _ => false

/-! ### Names fixed by the source module -/

/-- Source constant `REFRESH`: times the cached function was actually called. -/
def REFRESH : String := "Refresh"

/-- Source constant `WAIT`. -/
def WAIT : String := "Wait"

/-- Source constant `SLEEP`. -/
def SLEEP : String := "Sleep"

/-- Source constant `FAILED`. -/
def FAILED : String := "Failed"

/-- Source constant `MISSED`. -/
def MISSED : String := "Missed"

/-- Source constant `SUCCESS`. -/
def SUCCESS : String := "Success"

/-- Source constant `DEFAULT`. -/
def DEFAULT : String := "Default"

/-- Source constant `STATS`, in source order. -/
def STATS : List String := [REFRESH, WAIT, SLEEP, FAILED, MISSED, SUCCESS, DEFAULT]

/-- The Refresh Lock key for a cache key: the source writes `PREFIX + key`
with `PREFIX = "."`. -/
def lockKey (k : String) : String := "." ++ k

theorem lockKey_data (k : String) : (lockKey k).data = '.' :: k.data := by
  cases k; rfl

/-- A lock key is never equal to its own cache key (it is one character longer). -/
theorem lockKey_ne_self (k : String) : lockKey k ≠ k := by
  intro h
  have := congrArg (fun t => t.data.length) h
  simp [lockKey_data] at this

/-- No stats counter name is a lock key (counters do not start with a dot). -/
theorem stat_ne_lockKey (st : String) (hst : st ∈ STATS) (k : String) :
    st ≠ lockKey k := by
  intro h
  have hd := congrArg String.data h
  rw [lockKey_data] at hd
  fin_cases hst <;> simp [REFRESH, WAIT, SLEEP, FAILED, MISSED, SUCCESS, DEFAULT] at hd

/-! ### The cache decorator configuration (parameters of `RedisCache.cache`) -/

/-- Parameters of `RedisCache.cache` that the refresh coordinator consults,
together with the instance-wide `enabled` flag.  Values handled by the
store are modelled as strings; the optional serializer/deserializer are
string transforms. -/
structure CacheCfg where
  enabled : Bool
  refresh : Nat
  expire : Nat
  retry : Option Nat
  default : String
  wait : Bool
  serializer : Option (String → String)
  deserializer : Option (String → String)

/-- `serializer(new_value) if serializer else new_value` and its deserializer twin. -/
def applySer (f : Option (String → String)) (v : String) : String :=
  match f with
  | some g => g v
  | none => v

/-- Python truthiness of the optional cached value: `None` and the empty
string are falsy, any other string is truthy.  This is the test the
source performs at `if cached_value or not wait:`. -/
def truthy : Option String → Bool
  | none => false
  | some v => v ≠ ""

/-- The expiry the admission gate passes: `ex=retry if retry else refresh`.
Python truthiness makes both `None` and `0` fall back to `refresh`. -/
def lockTtl (cfg : CacheCfg) : Nat :=
  match cfg.retry with
  | some r => if r = 0 then cfg.refresh else r
  | none => cfg.refresh

/-- Outcome of one run of the recompute procedure `refreshvalue`. -/
structure RefreshOut where
  value : String
  store : Store
  ops : List Op

/-- The recompute procedure `refreshvalue(key)` of the source, with the
wrapped function's outcome passed in as `fres` (`.ok v` when
`function(*args, **kwargs)` returns `v`, `.error ()` when it raises).
It increments `Refresh`, and on an exception increments `Failed` and
`Default` and substitutes the default; then it serializes if requested,
stores the value with TTL `expire` and re-sets the refresh key with TTL
`refresh`.  The caught exception never escapes: the result type carries
no error case. -/
def refreshvalue (cfg : CacheCfg) (fres : Except Unit String) (key : String)
    (s : Store) : RefreshOut :=
  let s := s.incr REFRESH
  let (new_value, s, opsE) :=
    match fres with
    | .ok v => (v, s, [])
    | .error _ => (cfg.default, (s.incr FAILED).incr DEFAULT, [Op.incr FAILED, Op.incr DEFAULT])
  let new_value := applySer cfg.serializer new_value
  let s := s.set key new_value
  let s := s.set (lockKey key) "1"
  { value := new_value
    store := s
    ops := Op.incr REFRESH :: opsE ++
      [Op.set key new_value (some cfg.expire), Op.set (lockKey key) "1" (some cfg.refresh)] }

/-- Outcome of the polling wait loop. -/
structure PollOut where
  found : Option String
  iters : Nat
  store : Store
  ops : List Op

/-- The polling wait loop
`while cached_value is None and self.server.get(PREFIX + key): incr(SLEEP); sleep(1); cached_value = self.server.get(key)`.

`env t` is the shared store as other parties have left it `t` seconds
after the loop started; reads during the loop go to `env`, while the
loop's own `Sleep` increments accumulate on the carried store `s`.
`fuel` bounds the number of iterations (the claims instantiate it above
the lock's TTL, within which the loop is guaranteed to exit). -/
def pollLoop (key : String) (env : Nat → Store) (t : Nat) (fuel : Nat) (s : Store) : PollOut :=
  match fuel with
  | 0 => { found := none, iters := 0, store := s, ops := [] }
  | fuel + 1 =>
    if ((env t).get (lockKey key)).isSome then
      let s := s.incr SLEEP
      match (env (t + 1)).get key with
      | some v =>
          { found := some v, iters := 1, store := s
            ops := [Op.get (lockKey key), Op.incr SLEEP, Op.get key] }
      | none =>
          let r := pollLoop key env (t + 1) fuel s
          { found := r.found, iters := r.iters + 1, store := r.store
            ops := Op.get (lockKey key) :: Op.incr SLEEP :: Op.get key :: r.ops }
    else { found := none, iters := 0, store := s, ops := [Op.get (lockKey key)] }

/-- Outcome of one invocation of the decorator's `wrapper`. -/
structure WrapOut where
  result : Except Unit String
  store : Store
  ops : List Op
  dispatched : List String
  waitedInline : Bool
  sleeps : Nat

/-- One invocation of the decorator's `wrapper`, for a prebuilt key.

`fres` is the wrapped function's outcome for this invocation's
arguments.  A detached background recompute (`refreshvalueinthread`) is
recorded in `dispatched` and is *not* run: its effects are invisible to
this invocation.  `env`/`fuel` feed the polling wait loop only. -/
def wrapper (cfg : CacheCfg) (fres : Except Unit String) (key : String)
    (env : Nat → Store) (fuel : Nat) (s : Store) : WrapOut :=
  match cfg.enabled with
  | false =>
    -- `if not self.enabled:` call the function directly, serialize and
    -- deserialize for consistency; an exception from the function propagates.
    match fres with
    | .error e => { result := .error e, store := s, ops := [], dispatched := [],
                    waitedInline := false, sleeps := 0 }
    | .ok v => { result := .ok (applySer cfg.deserializer (applySer cfg.serializer v)),
                 store := s, ops := [], dispatched := [], waitedInline := false, sleeps := 0 }
  | true =>
    -- cached_value = self.server.get(key)
    let cached0 := s.get key
    -- stats: Missed if absent else Success
    let s := match cached0 with
      | none => s.incr MISSED
      | some _ => s.incr SUCCESS
    let opsA := [Op.get key,
      match cached0 with | none => Op.incr MISSED | some _ => Op.incr SUCCESS]
    -- admission gate: SET(PREFIX+key, 1, ex=retry if retry else refresh, nx=True)
    let won := ((s.get (lockKey key)).isNone : Bool)
    let s := if won then s.set (lockKey key) "1" else s
    let opsB := opsA ++ [Op.setnx (lockKey key) "1" (lockTtl cfg) won]
    -- admitted branch: background dispatch, or synchronous inline recompute
    let (cached1, s, opsC, dispatched, waitedInline) :=
      if won then
        if truthy cached0 || !cfg.wait then
          (cached0, s, opsB, [key], false)
        else
          let s := s.incr WAIT
          let r := refreshvalue cfg fres key s
          (some r.value, r.store, opsB ++ Op.incr WAIT :: r.ops, [], true)
      else (cached0, s, opsB, [], false)
    -- polling wait loop
    let (cached2, s, opsD, sleeps) :=
      if cached1.isNone && cfg.wait then
        let p := pollLoop key env 0 fuel s
        (p.found, p.store, opsC ++ p.ops, p.iters)
      else (cached1, s, opsC, 0)
    -- default substitution
    let (value, s, opsE) :=
      match cached2 with
      | none => (applySer cfg.serializer cfg.default, s.incr DEFAULT, opsD ++ [Op.incr DEFAULT])
      | some v => (v, s, opsD)
    { result := .ok (applySer cfg.deserializer value)
      store := s
      ops := opsE
      dispatched := dispatched
      waitedInline := waitedInline
      sleeps := sleeps }

/-! ### Key Builder (`RedisCache._create_key`) -/

/-- `f"'{value}'"`: an argument's textual representation wrapped in single
quotes.  Arguments are modelled pre-rendered, as the strings `str(value)`
produces. -/
def quoteArg (v : String) : String := "'" ++ v ++ "'"

/-- The positional-argument contribution of `_create_key`: skipped when
`args` is empty; filtered by index membership when `use_args` is truthy
(a non-empty list); all arguments otherwise (Python's `if use_args:`
treats both `None` and `[]` as false). -/
def argsContribution (args : List String) (use_args : Option (List Nat)) : List String :=
  if args.isEmpty then []
  else
    match use_args with
    | some ua =>
      if ua.isEmpty then args.map quoteArg
      else args.enum.filterMap fun p => if p.1 ∈ ua then some (quoteArg p.2) else none
    | none => args.map quoteArg

/-- The keyword-argument contribution of `_create_key`: `kwargs` is an
association list in dict iteration order; filtered by name membership
when `use_kwargs` is truthy. -/
def kwargsContribution (kwargs : List (String × String)) (use_kwargs : Option (List String)) :
    List String :=
  if kwargs.isEmpty then []
  else
    match use_kwargs with
    | some uk =>
      if uk.isEmpty then kwargs.map fun p => quoteArg p.2
      else kwargs.filterMap fun p => if p.1 ∈ uk then some (quoteArg p.2) else none
    | none => kwargs.map fun p => quoteArg p.2

/-- `RedisCache._create_key`: `f"{name}({','.join(values)})"`. -/
def create_key (name : String) (args : List String) (use_args : Option (List Nat))
    (kwargs : List (String × String)) (use_kwargs : Option (List String)) : String :=
  name ++ "(" ++
    String.intercalate "," (argsContribution args use_args ++ kwargsContribution kwargs use_kwargs)
    ++ ")"

/-- Modelled from the claim's words alone, for comparison with the source's
`create_key`: here an allow-list filters whenever it is *given*
(including when it is the empty list). -/
def create_key_claim (name : String) (args : List String) (use_args : Option (List Nat))
    (kwargs : List (String × String)) (use_kwargs : Option (List String)) : String :=
  let v1 : List String :=
    match use_args with
    | some ua => args.enum.filterMap fun p => if p.1 ∈ ua then some (quoteArg p.2) else none
    | none => args.map quoteArg
  let v2 : List String :=
    match use_kwargs with
    | some uk => kwargs.filterMap fun p => if p.1 ∈ uk then some (quoteArg p.2) else none
    | none => kwargs.map fun p => quoteArg p.2
  name ++ "(" ++ String.intercalate "," (v1 ++ v2) ++ ")"

/-! ### Stats Recorder (`RedisCache.get_stats`) -/

/-- Outcome of `get_stats`. -/
structure StatsOut where
  stats : List (String × Option String)
  store : Store
  ops : List Op

/-- `RedisCache.get_stats`: read every fixed counter; when `delete` is set,
delete them all afterwards.  The read and the deletes are separate store
commands, issued in that order. -/
def get_stats (delete : Bool) (s : Store) : StatsOut :=
  let stats := STATS.map fun stat => (stat, s.get stat)
  if delete then
    { stats := stats
      store := STATS.foldl Store.del s
      ops := STATS.map Op.get ++ STATS.map Op.del }
  else
    { stats := stats, store := s, ops := STATS.map Op.get }

/-! ### Access helpers: stats counters, cache keys and lock keys never alias -/

theorem get_incr_stat_lock (s : Store) (st k : String) (h : st ∈ STATS) :
    (s.incr st).get (lockKey k) = s.get (lockKey k) :=
  Store.get_incr_ne _ _ _ (stat_ne_lockKey st h k)

theorem get_set_lock_stat (s : Store) (k v st : String) (h : st ∈ STATS) :
    (s.set (lockKey k) v).get st = s.get st :=
  Store.get_set_ne _ _ _ _ (stat_ne_lockKey st h k).symm

theorem get_incr_stat_key (s : Store) (st key : String) (h : st ∈ STATS)
    (hk : key ∉ STATS) : (s.incr st).get key = s.get key :=
  Store.get_incr_ne _ _ _ fun hst => hk (hst ▸ h)

theorem get_set_key_stat (s : Store) (key v st : String) (h : st ∈ STATS)
    (hk : key ∉ STATS) : (s.set key v).get st = s.get st :=
  Store.get_set_ne _ _ _ _ fun hst => hk (hst.symm ▸ h)

theorem get_set_lock_key (s : Store) (key v : String) :
    (s.set (lockKey key) v).get key = s.get key :=
  Store.get_set_ne _ _ _ _ (lockKey_ne_self key)

theorem get_set_key_lock (s : Store) (key v : String) :
    (s.set key v).get (lockKey key) = s.get (lockKey key) :=
  Store.get_set_ne _ _ _ _ fun h => lockKey_ne_self key h.symm

theorem get_incr_key_lock (s : Store) (key : String) :
    (s.incr key).get (lockKey key) = s.get (lockKey key) :=
  get_set_key_lock _ _ _

theorem get_incr_stat_stat (s : Store) (st st' : String) (h : st ≠ st') :
    (s.incr st).get st' = s.get st' :=
  Store.get_incr_ne _ _ _ h

/-! ### Claim theorems -/

/-- C4: when the wrapped function raises inside the recompute procedure,
the exception does not escape (`refreshvalue` returns a plain value):
`Failed` and `Default` are each incremented once, the default is
substituted and serialized if a serializer is configured, the
substituted value is written under the key with TTL `expire`, and the
Refresh Lock entry is re-set with TTL `refresh`. -/
theorem c4_recompute_failure (cfg : CacheCfg) (key : String) (s : Store)
    (hkey : key ∉ STATS) :
    (refreshvalue cfg (.error ()) key s).value = applySer cfg.serializer cfg.default
    ∧ (refreshvalue cfg (.error ()) key s).store.get FAILED = some (incrStr (s.get FAILED))
    ∧ (refreshvalue cfg (.error ()) key s).store.get DEFAULT = some (incrStr (s.get DEFAULT))
    ∧ (refreshvalue cfg (.error ()) key s).store.get key
        = some (applySer cfg.serializer cfg.default)
    ∧ (refreshvalue cfg (.error ()) key s).store.get (lockKey key) = some "1"
    ∧ (refreshvalue cfg (.error ()) key s).ops
        = [Op.incr REFRESH, Op.incr FAILED, Op.incr DEFAULT,
           Op.set key (applySer cfg.serializer cfg.default) (some cfg.expire),
           Op.set (lockKey key) "1" (some cfg.refresh)] := by
  refine ⟨rfl, ?_, ?_, ?_, ?_, rfl⟩
  · simp only [refreshvalue]
    rw [get_set_lock_stat _ _ _ _ (by decide), get_set_key_stat _ _ _ _ (by decide) hkey,
      get_incr_stat_stat _ _ _ (by decide), Store.get_incr_same,
      get_incr_stat_stat _ _ _ (by decide)]
  · simp only [refreshvalue]
    rw [get_set_lock_stat _ _ _ _ (by decide), get_set_key_stat _ _ _ _ (by decide) hkey,
      Store.get_incr_same, get_incr_stat_stat _ _ _ (by decide),
      get_incr_stat_stat _ _ _ (by decide)]
  · simp [refreshvalue, get_set_lock_key, Store.get_set_same]
  · simp [refreshvalue, Store.get_set_same]

theorem c4_recompute_failure_witness :
    ("f()" ∉ STATS)
    ∧ (refreshvalue ⟨true, 10, 20, none, "DEF", false, none, none⟩ (.error ()) "f()"
        []).value = "DEF"
    ∧ (refreshvalue ⟨true, 10, 20, none, "DEF", false, none, none⟩ (.error ()) "f()"
        []).store.get FAILED = some (incrStr (Store.get [] FAILED)) :=
  ⟨by decide,
   (c4_recompute_failure ⟨true, 10, 20, none, "DEF", false, none, none⟩ "f()" []
      (by decide)).1,
   (c4_recompute_failure ⟨true, 10, 20, none, "DEF", false, none, none⟩ "f()" []
      (by decide)).2.1⟩

/-- C7 (amended): with the coordinator disabled, the wrapped function is
called directly and its result is returned after applying the
serializer and then also the deserializer, each if configured; no store
command is issued, the store (hence every stats counter) is unchanged,
and nothing is dispatched. -/
theorem c7_disabled_direct (cfg : CacheCfg) (fres : Except Unit String) (key : String)
    (env : Nat → Store) (fuel : Nat) (s : Store) (he : cfg.enabled = false) :
    wrapper cfg fres key env fuel s
      = { result := fres.map fun v => applySer cfg.deserializer (applySer cfg.serializer v),
          store := s, ops := [], dispatched := [], waitedInline := false, sleeps := 0 } := by
  cases fres <;> simp [wrapper, he, Except.map]

theorem c7_disabled_direct_witness :
    ((⟨false, 1, 2, none, "", false, none, none⟩ : CacheCfg).enabled = false)
    ∧ wrapper ⟨false, 1, 2, none, "", false, none, none⟩ (.ok "v") "f()" (fun _ => []) 0 []
      = { result := .ok "v", store := [], ops := [], dispatched := [],
          waitedInline := false, sleeps := 0 } :=
  ⟨rfl,
   c7_disabled_direct ⟨false, 1, 2, none, "", false, none, none⟩ (.ok "v") "f()"
     (fun _ => []) 0 [] rfl⟩

/-- C7 counterexample: the claim as stated says the serializer-applied
result is what is returned; but when a deserializer is also configured
the disabled path applies it too, so the returned value differs from
the serializer-applied result. -/
theorem c7_counterexample :
    (wrapper ⟨false, 1, 2, none, "", false, some (· ++ "S"), some (· ++ "D")⟩
        (.ok "v") "f()" (fun _ => []) 0 []).result = .ok "vSD"
    ∧ (Except.ok "vSD" : Except Unit String) ≠ .ok "vS" :=
  ⟨rfl, by simp⟩

/-- C9: `get_stats` reads all seven fixed counters and returns the mapping
of each name to its pre-deletion value; with `delete` set the trace is
seven GETs followed by seven DELs — the deletions happen only after all
reads, as two separate phases rather than one atomic pair — and a
`get_stats` issued on the resulting store with no intervening
increments returns all-absent counters. -/
theorem c9_get_stats (s : Store) (delete : Bool) :
    (get_stats delete s).stats = STATS.map (fun stat => (stat, s.get stat))
    ∧ (get_stats delete s).ops
        = (if delete then STATS.map Op.get ++ STATS.map Op.del else STATS.map Op.get)
    ∧ (get_stats false (get_stats true s).store).stats
        = STATS.map fun stat => (stat, none) := by
  refine ⟨?_, ?_, ?_⟩
  · cases delete <;> simp [get_stats]
  · cases delete <;> simp [get_stats]
  · simp [get_stats, STATS, Store.get_del, REFRESH, WAIT, SLEEP, FAILED, MISSED,
      SUCCESS, DEFAULT]

/-- Shape of a key built with no allow-lists: the name, then every
positional value followed by every keyword value, each rendered as
`str(value)` in single quotes, comma-joined. -/
theorem create_key_none_eq (name : String) (args : List String)
    (kwargs : List (String × String)) :
    create_key name args none kwargs none
      = name ++ "(" ++
        String.intercalate "," ((args ++ kwargs.map Prod.snd).map quoteArg) ++ ")" := by
  have h1 : argsContribution args none = args.map quoteArg := by
    cases args <;> simp [argsContribution]
  have h2 : kwargsContribution kwargs none = (kwargs.map Prod.snd).map quoteArg := by
    cases kwargs <;> simp [kwargsContribution, List.map_map, Function.comp]
  simp [create_key, h1, h2, List.map_append]

/-- C8 counterexample: with an explicitly given but *empty* positional
allow-list, the source includes every positional argument (Python's
`if use_args:` treats `[]` as absent), while the claim's reading
excludes them all. -/
theorem c8_counterexample :
    create_key "f" ["a"] (some []) [] none = "f('a')"
    ∧ create_key "f" ["a"] (some []) [] none
        ≠ create_key_claim "f" ["a"] (some []) [] none := by
  constructor
  · rfl
  · decide

/-- C8 (amended): whenever each allow-list is either absent or non-empty,
the Key Builder behaves exactly as the claim describes — it produces
`name(arg1,...)` from the participating arguments' textual
representations, positional arguments first in original order (filtered
by index membership when `use_args` is given), then keyword arguments
in their given iteration order (filtered by name membership when
`use_kwargs` is given); an empty allow-list is instead treated as
absent.  Being a pure function of its inputs, the builder is
deterministic and has no side effects. -/
theorem c8_key_builder (name : String) (args : List String)
    (use_args : Option (List Nat)) (kwargs : List (String × String))
    (use_kwargs : Option (List String))
    (ha : use_args ≠ some []) (hk : use_kwargs ≠ some []) :
    create_key name args use_args kwargs use_kwargs
      = create_key_claim name args use_args kwargs use_kwargs := by
  have step : ∀ (o : Option (List Nat)) (o' : Option (List String)),
      o ≠ some [] → o' ≠ some [] →
      create_key name args o kwargs o' = create_key_claim name args o kwargs o' := by
    rintro (_ | (_ | ⟨i, is⟩)) (_ | (_ | ⟨n, ns⟩)) ha' hk' <;>
      first
      | exact absurd rfl ha'
      | exact absurd rfl hk'
      | cases args <;> cases kwargs <;>
          simp [create_key, create_key_claim, argsContribution, kwargsContribution]
  exact step use_args use_kwargs ha hk

theorem c8_key_builder_witness :
    ((some [1] : Option (List Nat)) ≠ some [])
    ∧ ((some ["b"] : Option (List String)) ≠ some [])
    ∧ create_key "f" ["x", "y"] (some [1]) [("a", "1"), ("b", "2")] (some ["b"])
        = create_key_claim "f" ["x", "y"] (some [1]) [("a", "1"), ("b", "2")] (some ["b"]) :=
  ⟨by decide, by decide,
   c8_key_builder "f" ["x", "y"] (some [1]) [("a", "1"), ("b", "2")] (some ["b"])
     (by decide) (by decide)⟩

/-- C10: keyword names never reach the generated key — with no allow-lists
the key is exactly the name followed by every value (positional, then
keyword) rendered as `str(value)` in single quotes, comma-joined; hence
two calls whose keyword dicts carry the same values in the same order
under different names build the identical key, and so do a call passing
a value as a trailing positional and one passing it under any keyword
name. -/
theorem c10_names_never_in_key :
    (∀ (name : String) (args : List String) (kwargs : List (String × String)),
      create_key name args none kwargs none
        = name ++ "(" ++
          String.intercalate "," ((args ++ kwargs.map Prod.snd).map quoteArg) ++ ")")
    ∧ (∀ (name : String) (args : List String) (kwargs1 kwargs2 : List (String × String)),
        kwargs1.map Prod.snd = kwargs2.map Prod.snd →
        create_key name args none kwargs1 none = create_key name args none kwargs2 none)
    ∧ (∀ (name : String) (args : List String) (v kw : String)
        (kwargs : List (String × String)),
        create_key name (args ++ [v]) none kwargs none
          = create_key name args none ((kw, v) :: kwargs) none) := by
  refine ⟨fun name args kwargs => create_key_none_eq name args kwargs, ?_, ?_⟩
  · intro name args kwargs1 kwargs2 h
    rw [create_key_none_eq, create_key_none_eq, h]
  · intro name args v kw kwargs
    rw [create_key_none_eq, create_key_none_eq]
    simp

theorem c10_names_never_in_key_witness :
    ([("a", "7")].map Prod.snd = [("b", "7")].map Prod.snd)
    ∧ create_key "f" [] none [("a", "7")] none = create_key "f" [] none [("b", "7")] none :=
  ⟨rfl, c10_names_never_in_key.2.1 "f" [] [("a", "7")] [("b", "7")] rfl⟩

/-! ### Shape lemmas for the polling wait loop -/

/-- Every store command the polling loop issues is a read of the lock, a
`Sleep` increment, or a read of the value. -/
theorem pollLoop_ops_shape (key : String) (env : Nat → Store) :
    ∀ (fuel t : Nat) (s : Store), ∀ op ∈ (pollLoop key env t fuel s).ops,
      op = Op.get (lockKey key) ∨ op = Op.incr SLEEP ∨ op = Op.get key := by
  intro fuel
  induction fuel with
  | zero => intro t s op hop; simp [pollLoop] at hop
  | succ fuel ih =>
    intro t s op hop
    by_cases hl : ((env t).get (lockKey key)).isSome = true
    · rcases hv : (env (t + 1)).get key with _ | v
      · simp [pollLoop, hl, hv] at hop
        rcases hop with h | h | h | h
        · exact .inl h
        · exact .inr (.inl h)
        · exact .inr (.inr h)
        · exact ih (t + 1) (s.incr SLEEP) op h
      · simp [pollLoop, hl, hv] at hop
        rcases hop with h | h | h
        · exact .inl h
        · exact .inr (.inl h)
        · exact .inr (.inr h)
    · simp [pollLoop, hl] at hop
      exact .inl hop

/-- The loop issues exactly one `Sleep` increment per iteration. -/
theorem pollLoop_sleep_count (key : String) (env : Nat → Store) :
    ∀ (fuel t : Nat) (s : Store),
      ((pollLoop key env t fuel s).ops.count (Op.incr SLEEP))
        = (pollLoop key env t fuel s).iters := by
  intro fuel
  induction fuel with
  | zero => intro t s; simp [pollLoop]
  | succ fuel ih =>
    intro t s
    by_cases hl : ((env t).get (lockKey key)).isSome = true
    · rcases hv : (env (t + 1)).get key with _ | v
      · simp [pollLoop, hl, hv, List.count_cons, ih (t + 1) (s.incr SLEEP)]
      · simp [pollLoop, hl, hv, List.count_cons]
    · simp [pollLoop, hl, List.count_cons]

/-- If the value appears in the environment after `n + 1` seconds while the
lock was still present at every earlier look, the loop exits with that
value after `n + 1` iterations, having incremented `Sleep` once per
iteration on the carried store. -/
theorem pollLoop_finds (key : String) (env : Nat → Store) (v : String) :
    ∀ (n t fuel : Nat) (s : Store),
      (∀ i, i ≤ n → ((env (t + i)).get (lockKey key)).isSome = true) →
      (∀ i, i < n → (env (t + i + 1)).get key = none) →
      (env (t + n + 1)).get key = some v →
      n < fuel →
      (pollLoop key env t fuel s).found = some v
      ∧ (pollLoop key env t fuel s).iters = n + 1
      ∧ (pollLoop key env t fuel s).store = (fun st => Store.incr st SLEEP)^[n + 1] s := by
  intro n
  induction n with
  | zero =>
    intro t fuel s h1 _ h3 hfuel
    match fuel, hfuel with
    | fuel + 1, _ =>
      have hl : ((env t).get (lockKey key)).isSome = true := by
        simpa using h1 0 (Nat.le_refl 0)
      rw [show t + 0 + 1 = t + 1 by omega] at h3
      simp [pollLoop, hl, h3]
  | succ n ih =>
    intro t fuel s h1 h2 h3 hfuel
    match fuel, hfuel with
    | fuel + 1, hfuel =>
      have hl : ((env t).get (lockKey key)).isSome = true := by
        simpa using h1 0 (Nat.zero_le _)
      have hv : (env (t + 1)).get key = none := by
        simpa using h2 0 (Nat.succ_pos n)
      have h1' : ∀ i, i ≤ n → ((env (t + 1 + i)).get (lockKey key)).isSome = true := by
        intro i hi
        rw [show t + 1 + i = t + (i + 1) by omega]
        exact h1 (i + 1) (by omega)
      have h2' : ∀ i, i < n → (env (t + 1 + i + 1)).get key = none := by
        intro i hi
        rw [show t + 1 + i + 1 = t + (i + 1) + 1 by omega]
        exact h2 (i + 1) (by omega)
      have h3' : (env (t + 1 + n + 1)).get key = some v := by
        rw [show t + 1 + n + 1 = t + (n + 1) + 1 by omega]
        exact h3
      have hr := ih (t + 1) fuel (s.incr SLEEP) h1' h2' h3' (by omega)
      refine ⟨?_, ?_, ?_⟩
      · simp [pollLoop, hl, hv, hr.1]
      · simp [pollLoop, hl, hv, hr.2.1]
      · simp only [pollLoop, hl, if_true, hv]
        rw [hr.2.2, ← Function.iterate_succ_apply]

/-- If the lock is already gone when the loop first looks, it exits at once
with nothing found and no sleeps. -/
theorem pollLoop_lock_gone (key : String) (env : Nat → Store) (t fuel : Nat) (s : Store)
    (hl : ((env t).get (lockKey key)).isSome = false) (hfuel : 0 < fuel) :
    pollLoop key env t fuel s
      = { found := none, iters := 0, store := s, ops := [Op.get (lockKey key)] } := by
  match fuel, hfuel with
  | fuel + 1, _ => simp [pollLoop, hl]

/-- `Sleep` increments do not disturb other keys. -/
theorem get_iterate_incr_sleep (m : Nat) (s : Store) (k : String) (h : SLEEP ≠ k) :
    ((fun st => Store.incr st SLEEP)^[m] s).get k = s.get k := by
  induction m generalizing s with
  | zero => rfl
  | succ m ih => rw [Function.iterate_succ_apply, ih, Store.get_incr_ne _ _ _ h]

/-! ### Scenario equations for one `wrapper` invocation -/

/-- Disabled coordinator: direct call, serializer then deserializer, no
store interaction. -/
theorem wrapper_disabled (cfg : CacheCfg) (fres : Except Unit String) (key : String)
    (env : Nat → Store) (fuel : Nat) (s : Store) (he : cfg.enabled = false) :
    wrapper cfg fres key env fuel s
      = { result := fres.map fun v => applySer cfg.deserializer (applySer cfg.serializer v),
          store := s, ops := [], dispatched := [], waitedInline := false, sleeps := 0 } := by
  cases fres <;> simp [wrapper, he, Except.map]

/-- Admitted, cached value truthy or no wait requested: detached dispatch,
value served from cache. -/
theorem wrapper_detached_cached (cfg : CacheCfg) (fres : Except Unit String) (key : String)
    (env : Nat → Store) (fuel : Nat) (s : Store) (v : String)
    (he : cfg.enabled = true) (hv : s.get key = some v)
    (hlock : s.get (lockKey key) = none)
    (htw : (truthy (some v) || !cfg.wait) = true) :
    wrapper cfg fres key env fuel s
      = { result := .ok (applySer cfg.deserializer v),
          store := (s.incr SUCCESS).set (lockKey key) "1",
          ops := [Op.get key, Op.incr SUCCESS, Op.setnx (lockKey key) "1" (lockTtl cfg) true],
          dispatched := [key], waitedInline := false, sleeps := 0 } := by
  have hl : (s.incr SUCCESS).get (lockKey key) = none := by
    rw [get_incr_stat_lock _ _ _ (by decide)]; exact hlock
  rcases (Bool.or_eq_true _ _).mp htw with h | h
  · simp [wrapper, he, hv, hl, h]
  · have hw : cfg.wait = false := by revert h; cases cfg.wait <;> simp
    simp [wrapper, he, hv, hl, hw]

/-- Admitted, nothing cached, no wait requested: detached dispatch, default
substituted. -/
theorem wrapper_detached_missing (cfg : CacheCfg) (fres : Except Unit String) (key : String)
    (env : Nat → Store) (fuel : Nat) (s : Store)
    (he : cfg.enabled = true) (hv : s.get key = none)
    (hlock : s.get (lockKey key) = none) (hw : cfg.wait = false) :
    wrapper cfg fres key env fuel s
      = { result := .ok (applySer cfg.deserializer (applySer cfg.serializer cfg.default)),
          store := ((s.incr MISSED).set (lockKey key) "1").incr DEFAULT,
          ops := [Op.get key, Op.incr MISSED, Op.setnx (lockKey key) "1" (lockTtl cfg) true,
            Op.incr DEFAULT],
          dispatched := [key], waitedInline := false, sleeps := 0 } := by
  have hl : (s.incr MISSED).get (lockKey key) = none := by
    rw [get_incr_stat_lock _ _ _ (by decide)]; exact hlock
  simp [wrapper, he, hv, hl, hw, truthy]

/-- Admitted, nothing cached, wait requested: synchronous in-line recompute. -/
theorem wrapper_sync_missing (cfg : CacheCfg) (fres : Except Unit String) (key : String)
    (env : Nat → Store) (fuel : Nat) (s : Store)
    (he : cfg.enabled = true) (hv : s.get key = none)
    (hlock : s.get (lockKey key) = none) (hw : cfg.wait = true) :
    wrapper cfg fres key env fuel s
      = { result := .ok (applySer cfg.deserializer
            (refreshvalue cfg fres key (((s.incr MISSED).set (lockKey key) "1").incr WAIT)).value),
          store := (refreshvalue cfg fres key
            (((s.incr MISSED).set (lockKey key) "1").incr WAIT)).store,
          ops := [Op.get key, Op.incr MISSED, Op.setnx (lockKey key) "1" (lockTtl cfg) true,
              Op.incr WAIT]
            ++ (refreshvalue cfg fres key
                (((s.incr MISSED).set (lockKey key) "1").incr WAIT)).ops,
          dispatched := [], waitedInline := true, sleeps := 0 } := by
  have hl : (s.incr MISSED).get (lockKey key) = none := by
    rw [get_incr_stat_lock _ _ _ (by decide)]; exact hlock
  simp [wrapper, he, hv, hl, hw, truthy]

/-- Admitted, cached value present but empty, wait requested: the empty
string is falsy, so this also takes the synchronous in-line path. -/
theorem wrapper_sync_empty (cfg : CacheCfg) (fres : Except Unit String) (key : String)
    (env : Nat → Store) (fuel : Nat) (s : Store)
    (he : cfg.enabled = true) (hv : s.get key = some "")
    (hlock : s.get (lockKey key) = none) (hw : cfg.wait = true) :
    wrapper cfg fres key env fuel s
      = { result := .ok (applySer cfg.deserializer
            (refreshvalue cfg fres key (((s.incr SUCCESS).set (lockKey key) "1").incr WAIT)).value),
          store := (refreshvalue cfg fres key
            (((s.incr SUCCESS).set (lockKey key) "1").incr WAIT)).store,
          ops := [Op.get key, Op.incr SUCCESS, Op.setnx (lockKey key) "1" (lockTtl cfg) true,
              Op.incr WAIT]
            ++ (refreshvalue cfg fres key
                (((s.incr SUCCESS).set (lockKey key) "1").incr WAIT)).ops,
          dispatched := [], waitedInline := true, sleeps := 0 } := by
  have hl : (s.incr SUCCESS).get (lockKey key) = none := by
    rw [get_incr_stat_lock _ _ _ (by decide)]; exact hlock
  simp [wrapper, he, hv, hl, hw, truthy]

/-- Not admitted, cached value present (possibly empty): the value is served
as is, nothing is recomputed, nothing is polled. -/
theorem wrapper_skip_cached (cfg : CacheCfg) (fres : Except Unit String) (key : String)
    (env : Nat → Store) (fuel : Nat) (s : Store) (v lv : String)
    (he : cfg.enabled = true) (hv : s.get key = some v)
    (hlock : s.get (lockKey key) = some lv) :
    wrapper cfg fres key env fuel s
      = { result := .ok (applySer cfg.deserializer v),
          store := s.incr SUCCESS,
          ops := [Op.get key, Op.incr SUCCESS, Op.setnx (lockKey key) "1" (lockTtl cfg) false],
          dispatched := [], waitedInline := false, sleeps := 0 } := by
  have hl : (s.incr SUCCESS).get (lockKey key) = some lv := by
    rw [get_incr_stat_lock _ _ _ (by decide)]; exact hlock
  simp [wrapper, he, hv, hl]

/-- Not admitted, nothing cached, no wait requested: default substituted
with no recompute and no polling. -/
theorem wrapper_skip_missing_nowait (cfg : CacheCfg) (fres : Except Unit String) (key : String)
    (env : Nat → Store) (fuel : Nat) (s : Store) (lv : String)
    (he : cfg.enabled = true) (hv : s.get key = none)
    (hlock : s.get (lockKey key) = some lv) (hw : cfg.wait = false) :
    wrapper cfg fres key env fuel s
      = { result := .ok (applySer cfg.deserializer (applySer cfg.serializer cfg.default)),
          store := (s.incr MISSED).incr DEFAULT,
          ops := [Op.get key, Op.incr MISSED, Op.setnx (lockKey key) "1" (lockTtl cfg) false,
            Op.incr DEFAULT],
          dispatched := [], waitedInline := false, sleeps := 0 } := by
  have hl : (s.incr MISSED).get (lockKey key) = some lv := by
    rw [get_incr_stat_lock _ _ _ (by decide)]; exact hlock
  simp [wrapper, he, hv, hl, hw]

/-- Not admitted, nothing cached, wait requested: the polling wait loop
runs; its outcome (or the default, if it found nothing) is served. -/
theorem wrapper_poll (cfg : CacheCfg) (fres : Except Unit String) (key : String)
    (env : Nat → Store) (fuel : Nat) (s : Store) (lv : String)
    (he : cfg.enabled = true) (hv : s.get key = none)
    (hlock : s.get (lockKey key) = some lv) (hw : cfg.wait = true) :
    wrapper cfg fres key env fuel s
      = { result := .ok (applySer cfg.deserializer
            (match (pollLoop key env 0 fuel (s.incr MISSED)).found with
             | some v => v
             | none => applySer cfg.serializer cfg.default)),
          store := match (pollLoop key env 0 fuel (s.incr MISSED)).found with
            | some _ => (pollLoop key env 0 fuel (s.incr MISSED)).store
            | none => (pollLoop key env 0 fuel (s.incr MISSED)).store.incr DEFAULT,
          ops := [Op.get key, Op.incr MISSED, Op.setnx (lockKey key) "1" (lockTtl cfg) false]
            ++ (pollLoop key env 0 fuel (s.incr MISSED)).ops
            ++ (match (pollLoop key env 0 fuel (s.incr MISSED)).found with
                | some _ => []
                | none => [Op.incr DEFAULT]),
          dispatched := [], waitedInline := false,
          sleeps := (pollLoop key env 0 fuel (s.incr MISSED)).iters } := by
  have hl : (s.incr MISSED).get (lockKey key) = some lv := by
    rw [get_incr_stat_lock _ _ _ (by decide)]; exact hlock
  rcases hp : (pollLoop key env 0 fuel (s.incr MISSED)).found with _ | v <;>
    simp [wrapper, he, hv, hl, hw, hp]

/-! ### Projection helpers for `refreshvalue` -/

theorem refreshvalue_value (cfg : CacheCfg) (fres : Except Unit String) (key : String)
    (s : Store) :
    (refreshvalue cfg fres key s).value
      = applySer cfg.serializer
          (match fres with | .ok v => v | .error _ => cfg.default) := by
  cases fres <;> rfl

theorem refreshvalue_get_key (cfg : CacheCfg) (fres : Except Unit String) (key : String)
    (s : Store) :
    (refreshvalue cfg fres key s).store.get key = some (refreshvalue cfg fres key s).value := by
  cases fres <;> simp [refreshvalue, get_set_lock_key, Store.get_set_same]

theorem refreshvalue_get_lock (cfg : CacheCfg) (fres : Except Unit String) (key : String)
    (s : Store) :
    (refreshvalue cfg fres key s).store.get (lockKey key) = some "1" := by
  cases fres <;> simp [refreshvalue, Store.get_set_same]

/-- A successful recompute touches no counter besides `Refresh`. -/
theorem refreshvalue_ok_get_stat (cfg : CacheCfg) (v key : String) (s : Store) (st : String)
    (hst : st ∈ STATS) (hkey : key ∉ STATS) (h1 : st ≠ REFRESH) :
    (refreshvalue cfg (.ok v) key s).store.get st = s.get st := by
  simp only [refreshvalue]
  rw [get_set_lock_stat _ _ _ _ hst, get_set_key_stat _ _ _ _ hst hkey,
    get_incr_stat_stat _ _ _ (Ne.symm h1)]

/-- Any recompute leaves counters other than `Refresh`, `Failed` and
`Default` alone. -/
theorem refreshvalue_get_stat (cfg : CacheCfg) (fres : Except Unit String) (key : String)
    (s : Store) (st : String) (hst : st ∈ STATS) (hkey : key ∉ STATS)
    (h1 : st ≠ REFRESH) (h2 : st ≠ FAILED) (h3 : st ≠ DEFAULT) :
    (refreshvalue cfg fres key s).store.get st = s.get st := by
  cases fres with
  | ok v => exact refreshvalue_ok_get_stat cfg v key s st hst hkey h1
  | error e =>
    simp only [refreshvalue]
    rw [get_set_lock_stat _ _ _ _ hst, get_set_key_stat _ _ _ _ hst hkey,
      get_incr_stat_stat _ _ _ (Ne.symm h3), get_incr_stat_stat _ _ _ (Ne.symm h2),
      get_incr_stat_stat _ _ _ (Ne.symm h1)]

/-- Any recompute increments `Refresh` exactly once. -/
theorem refreshvalue_get_refresh (cfg : CacheCfg) (fres : Except Unit String) (key : String)
    (s : Store) (hkey : key ∉ STATS) :
    (refreshvalue cfg fres key s).store.get REFRESH = some (incrStr (s.get REFRESH)) := by
  cases fres with
  | ok v =>
    simp only [refreshvalue]
    rw [get_set_lock_stat _ _ _ _ (by decide), get_set_key_stat _ _ _ _ (by decide) hkey,
      Store.get_incr_same]
  | error e =>
    simp only [refreshvalue]
    rw [get_set_lock_stat _ _ _ _ (by decide), get_set_key_stat _ _ _ _ (by decide) hkey,
      get_incr_stat_stat _ _ _ (by decide), get_incr_stat_stat _ _ _ (by decide),
      Store.get_incr_same]

/-- The only command a recompute issues on the Refresh Lock key is the
unconditional re-set with TTL `refresh`. -/
theorem refreshvalue_lock_ops (cfg : CacheCfg) (fres : Except Unit String) (key : String)
    (s : Store) : ∀ op ∈ (refreshvalue cfg fres key s).ops, op.key = lockKey key →
      op = Op.set (lockKey key) "1" (some cfg.refresh) := by
  intro op hop hk
  cases fres with
  | ok v =>
    simp [refreshvalue] at hop
    rcases hop with rfl | rfl | rfl
    · exact absurd hk (stat_ne_lockKey REFRESH (by decide) key)
    · exact absurd hk (Ne.symm (lockKey_ne_self key))
    · rfl
  | error e =>
    simp [refreshvalue] at hop
    rcases hop with rfl | rfl | rfl | rfl | rfl
    · exact absurd hk (stat_ne_lockKey REFRESH (by decide) key)
    · exact absurd hk (stat_ne_lockKey FAILED (by decide) key)
    · exact absurd hk (stat_ne_lockKey DEFAULT (by decide) key)
    · exact absurd hk (Ne.symm (lockKey_ne_self key))
    · rfl

/-- A recompute never deletes anything. -/
theorem refreshvalue_no_del (cfg : CacheCfg) (fres : Except Unit String) (key : String)
    (s : Store) : ∀ op ∈ (refreshvalue cfg fres key s).ops, op.isDel = false := by
  intro op hop
  cases fres with
  | ok v =>
    simp [refreshvalue] at hop
    rcases hop with rfl | rfl | rfl <;> rfl
  | error e =>
    simp [refreshvalue] at hop
    rcases hop with rfl | rfl | rfl | rfl | rfl <;> rfl

/-- C1 counterexample: an enabled invocation that wins the admission
conditional-set, with a present-but-empty cached value and `wait=true`,
does *not* take the detached-background path: nothing is dispatched, the
recompute runs synchronously in-line, and its result (not the cached
empty value) is returned — the source tests Python truthiness
(`if cached_value or not wait:`), not presence. -/
theorem c1_counterexample :
    (wrapper ⟨true, 10, 20, none, "DEF", true, none, none⟩ (.ok "FRESH") "f()"
        (fun _ => []) 5 [("f()", "")]).dispatched = []
    ∧ (wrapper ⟨true, 10, 20, none, "DEF", true, none, none⟩ (.ok "FRESH") "f()"
        (fun _ => []) 5 [("f()", "")]).waitedInline = true
    ∧ (wrapper ⟨true, 10, 20, none, "DEF", true, none, none⟩ (.ok "FRESH") "f()"
        (fun _ => []) 5 [("f()", "")]).result = .ok "FRESH" :=
  ⟨rfl, rfl, rfl⟩

/-- C1 (amended): for every enabled invocation that wins the admission
conditional-set: if the cached value is truthy — present *and*
non-empty — or `wait` is false, the recompute is dispatched as a
detached background task (nothing runs inline, `Wait` is untouched) and
the invocation proceeds with the current value; exactly when the cached
value is falsy (absent, or present but empty) and `wait` is true, the
invocation increments `Wait`, runs the recompute synchronously in-line
and uses its result.  The original claim's present-but-empty case is the
opposite of what the code does, because the admission branch tests
Python truthiness rather than presence. -/
theorem c1_admission_branching (cfg : CacheCfg) (fres : Except Unit String) (key : String)
    (env : Nat → Store) (fuel : Nat) (s : Store)
    (he : cfg.enabled = true) (hkey : key ∉ STATS) (hlock : s.get (lockKey key) = none) :
    ((truthy (s.get key) = true ∨ cfg.wait = false) →
      (wrapper cfg fres key env fuel s).dispatched = [key]
      ∧ (wrapper cfg fres key env fuel s).waitedInline = false
      ∧ (wrapper cfg fres key env fuel s).store.get WAIT = s.get WAIT
      ∧ (wrapper cfg fres key env fuel s).result
          = .ok (applySer cfg.deserializer
              (match s.get key with
               | some v => v
               | none => applySer cfg.serializer cfg.default)))
    ∧ (truthy (s.get key) = false → cfg.wait = true →
      (wrapper cfg fres key env fuel s).dispatched = []
      ∧ (wrapper cfg fres key env fuel s).waitedInline = true
      ∧ (wrapper cfg fres key env fuel s).store.get WAIT = some (incrStr (s.get WAIT))
      ∧ (wrapper cfg fres key env fuel s).result
          = .ok (applySer cfg.deserializer (applySer cfg.serializer
              (match fres with | .ok v => v | .error _ => cfg.default)))) := by
  constructor
  · intro h
    cases hv : s.get key with
    | none =>
      have hw : cfg.wait = false := by
        rcases h with h | h
        · rw [hv] at h; simp [truthy] at h
        · exact h
      rw [wrapper_detached_missing cfg fres key env fuel s he hv hlock hw]
      refine ⟨rfl, rfl, ?_, by simp [hv]⟩
      rw [get_incr_stat_stat _ _ _ (by decide), get_set_lock_stat _ _ _ _ (by decide),
        get_incr_stat_stat _ _ _ (by decide)]
    | some v =>
      have htw : (truthy (some v) || !cfg.wait) = true := by
        rcases h with h | h
        · rw [hv] at h; simp [h]
        · simp [h]
      rw [wrapper_detached_cached cfg fres key env fuel s v he hv hlock htw]
      refine ⟨rfl, rfl, ?_, by simp [hv]⟩
      rw [get_set_lock_stat _ _ _ _ (by decide), get_incr_stat_stat _ _ _ (by decide)]
  · intro ht hw
    cases hv : s.get key with
    | none =>
      rw [wrapper_sync_missing cfg fres key env fuel s he hv hlock hw]
      refine ⟨rfl, rfl, ?_, ?_⟩
      · rw [refreshvalue_get_stat _ _ _ _ WAIT (by decide) hkey (by decide) (by decide)
          (by decide), Store.get_incr_same, get_set_lock_stat _ _ _ _ (by decide),
          get_incr_stat_stat _ _ _ (by decide)]
      · rw [refreshvalue_value]
    | some v =>
      have hv0 : v = "" := by rw [hv] at ht; simpa [truthy] using ht
      subst hv0
      rw [wrapper_sync_empty cfg fres key env fuel s he hv hlock hw]
      refine ⟨rfl, rfl, ?_, ?_⟩
      · rw [refreshvalue_get_stat _ _ _ _ WAIT (by decide) hkey (by decide) (by decide)
          (by decide), Store.get_incr_same, get_set_lock_stat _ _ _ _ (by decide),
          get_incr_stat_stat _ _ _ (by decide)]
      · rw [refreshvalue_value]

theorem c1_admission_branching_witness :
    (wrapper ⟨true, 5, 9, none, "d", true, none, none⟩ (.ok "V") "f()" (fun _ => []) 3
        [("f()", "x")]).dispatched = ["f()"]
    ∧ (wrapper ⟨true, 5, 9, none, "d", true, none, none⟩ (.ok "V") "f()" (fun _ => []) 3
        [("f()", "x")]).result = .ok "x" := by
  have h := (c1_admission_branching ⟨true, 5, 9, none, "d", true, none, none⟩ (.ok "V")
    "f()" (fun _ => []) 3 [("f()", "x")] rfl (by decide) rfl).1 (Or.inl (by decide))
  exact ⟨h.1, h.2.2.2⟩

/-- C5 counterexample: a key whose cached value is the empty string, with
`wait=true`, a free admission gate and a failing computation: the
invocation does return the default (after incrementing `Default` inside
the recompute), not the cached empty value — refuting "returns that
empty value, never the default". -/
theorem c5_counterexample :
    (wrapper ⟨true, 10, 20, none, "DEF", true, none, none⟩ (.error ()) "f()"
        (fun _ => []) 5 [("f()", "")]).result = .ok "DEF"
    ∧ (wrapper ⟨true, 10, 20, none, "DEF", true, none, none⟩ (.error ()) "f()"
        (fun _ => []) 5 [("f()", "")]).store.get DEFAULT = some "1"
    ∧ ("DEF" : String) ≠ "" :=
  ⟨rfl, rfl, by decide⟩

/-- C5 (amended): an empty-but-defined cached value is treated as present,
distinct from absent: `Success` (not `Missed`) is incremented, the
wrapper's `Default` substitution does not fire, and the invocation
returns the empty value after deserialization — *except* when `wait` is
true and this invocation wins the admission conditional-set, in which
case the empty value is falsy, the recompute runs synchronously and its
result is returned instead (see the counterexample). -/
theorem c5_empty_value (cfg : CacheCfg) (fres : Except Unit String) (key : String)
    (env : Nat → Store) (fuel : Nat) (s : Store)
    (he : cfg.enabled = true) (hv : s.get key = some "")
    (hx : cfg.wait = false ∨ ∃ lv, s.get (lockKey key) = some lv) :
    (wrapper cfg fres key env fuel s).result = .ok (applySer cfg.deserializer "")
    ∧ (wrapper cfg fres key env fuel s).store.get SUCCESS = some (incrStr (s.get SUCCESS))
    ∧ (wrapper cfg fres key env fuel s).store.get MISSED = s.get MISSED
    ∧ (wrapper cfg fres key env fuel s).store.get DEFAULT = s.get DEFAULT := by
  have hskip : ∀ lv, s.get (lockKey key) = some lv →
      (wrapper cfg fres key env fuel s).result = .ok (applySer cfg.deserializer "")
      ∧ (wrapper cfg fres key env fuel s).store.get SUCCESS = some (incrStr (s.get SUCCESS))
      ∧ (wrapper cfg fres key env fuel s).store.get MISSED = s.get MISSED
      ∧ (wrapper cfg fres key env fuel s).store.get DEFAULT = s.get DEFAULT := by
    intro lv hl
    rw [wrapper_skip_cached cfg fres key env fuel s "" lv he hv hl]
    refine ⟨rfl, Store.get_incr_same s SUCCESS, ?_, ?_⟩
    · rw [get_incr_stat_stat _ _ _ (by decide)]
    · rw [get_incr_stat_stat _ _ _ (by decide)]
  rcases hx with hw | ⟨lv, hl⟩
  · cases hlk : s.get (lockKey key) with
    | none =>
      rw [wrapper_detached_cached cfg fres key env fuel s "" he hv hlk (by simp [hw])]
      refine ⟨rfl, ?_, ?_, ?_⟩
      · rw [get_set_lock_stat _ _ _ _ (by decide), Store.get_incr_same]
      · rw [get_set_lock_stat _ _ _ _ (by decide), get_incr_stat_stat _ _ _ (by decide)]
      · rw [get_set_lock_stat _ _ _ _ (by decide), get_incr_stat_stat _ _ _ (by decide)]
    | some lv => exact hskip lv hlk
  · exact hskip lv hl

theorem c5_empty_value_witness :
    (wrapper ⟨true, 10, 20, none, "DEF", true, none, none⟩ (.ok "X") "f()" (fun _ => []) 5
        [("f()", ""), (".f()", "1")]).result = .ok ""
    ∧ (wrapper ⟨true, 10, 20, none, "DEF", true, none, none⟩ (.ok "X") "f()" (fun _ => []) 5
        [("f()", ""), (".f()", "1")]).store.get SUCCESS = some "1" := by
  have h := c5_empty_value ⟨true, 10, 20, none, "DEF", true, none, none⟩ (.ok "X") "f()"
    (fun _ => []) 5 [("f()", ""), (".f()", "1")] rfl rfl (.inr ⟨"1", rfl⟩)
  exact ⟨h.1, h.2.1⟩

/-- C3: for a key with no prior cache entry and `wait=false`, the first
invocation increments `Missed` and `Default` and returns the default
(without writing it under the key itself — only the detached recompute
is dispatched); once that detached recompute has run, a subsequent
invocation returns the real computed value, with `Refresh` having been
incremented exactly once relative to the initial store. -/
theorem c3_nowait_default_then_real (cfg : CacheCfg) (key : String) (env : Nat → Store)
    (fuel : Nat) (s : Store) (v : String)
    (he : cfg.enabled = true) (hw : cfg.wait = false) (hkey : key ∉ STATS)
    (hv : s.get key = none) (hlock : s.get (lockKey key) = none)
    (hrtd : applySer cfg.deserializer (applySer cfg.serializer cfg.default) = cfg.default)
    (hrtv : applySer cfg.deserializer (applySer cfg.serializer v) = v) :
    (wrapper cfg (.ok v) key env fuel s).result = .ok cfg.default
    ∧ (wrapper cfg (.ok v) key env fuel s).dispatched = [key]
    ∧ (wrapper cfg (.ok v) key env fuel s).store.get MISSED
        = some (incrStr (s.get MISSED))
    ∧ (wrapper cfg (.ok v) key env fuel s).store.get DEFAULT
        = some (incrStr (s.get DEFAULT))
    ∧ (wrapper cfg (.ok v) key env fuel s).store.get key = none
    ∧ (wrapper cfg (.ok v) key env fuel
        (refreshvalue cfg (.ok v) key (wrapper cfg (.ok v) key env fuel s).store).store).result
        = .ok v
    ∧ (wrapper cfg (.ok v) key env fuel
        (refreshvalue cfg (.ok v) key (wrapper cfg (.ok v) key env fuel s).store).store).store.get
          REFRESH
        = some (incrStr (s.get REFRESH)) := by
  rw [wrapper_detached_missing cfg (.ok v) key env fuel s he hv hlock hw]
  have hs1M : (((s.incr MISSED).set (lockKey key) "1").incr DEFAULT).get MISSED
      = some (incrStr (s.get MISSED)) := by
    rw [get_incr_stat_stat _ _ _ (by decide), get_set_lock_stat _ _ _ _ (by decide),
      Store.get_incr_same]
  have hs1D : (((s.incr MISSED).set (lockKey key) "1").incr DEFAULT).get DEFAULT
      = some (incrStr (s.get DEFAULT)) := by
    rw [Store.get_incr_same, get_set_lock_stat _ _ _ _ (by decide),
      get_incr_stat_stat _ _ _ (by decide)]
  have hs1K : (((s.incr MISSED).set (lockKey key) "1").incr DEFAULT).get key = none := by
    rw [get_incr_stat_key _ _ _ (by decide) hkey, get_set_lock_key,
      get_incr_stat_key _ _ _ (by decide) hkey, hv]
  have hs1R : (((s.incr MISSED).set (lockKey key) "1").incr DEFAULT).get REFRESH
      = s.get REFRESH := by
    rw [get_incr_stat_stat _ _ _ (by decide), get_set_lock_stat _ _ _ _ (by decide),
      get_incr_stat_stat _ _ _ (by decide)]
  refine ⟨by rw [hrtd], rfl, hs1M, hs1D, hs1K, ?_, ?_⟩
  · rw [wrapper_skip_cached cfg (.ok v) key env fuel _ (applySer cfg.serializer v) "1" he
      (by rw [refreshvalue_get_key, refreshvalue_value]) (refreshvalue_get_lock _ _ _ _)]
    rw [hrtv]
  · rw [wrapper_skip_cached cfg (.ok v) key env fuel _ (applySer cfg.serializer v) "1" he
      (by rw [refreshvalue_get_key, refreshvalue_value]) (refreshvalue_get_lock _ _ _ _)]
    rw [get_incr_stat_stat _ _ _ (by decide), refreshvalue_get_refresh _ _ _ _ hkey, hs1R]

theorem c3_nowait_default_then_real_witness :
    (wrapper ⟨true, 5, 9, none, "d", false, none, none⟩ (.ok "V") "g()" (fun _ => []) 3
        []).result = .ok "d"
    ∧ (wrapper ⟨true, 5, 9, none, "d", false, none, none⟩ (.ok "V") "g()" (fun _ => []) 3
        []).store.get "g()" = none
    ∧ (wrapper ⟨true, 5, 9, none, "d", false, none, none⟩ (.ok "V") "g()" (fun _ => []) 3
        (refreshvalue ⟨true, 5, 9, none, "d", false, none, none⟩ (.ok "V") "g()"
          (wrapper ⟨true, 5, 9, none, "d", false, none, none⟩ (.ok "V") "g()" (fun _ => []) 3
            []).store).store).result = .ok "V" := by
  have h := c3_nowait_default_then_real ⟨true, 5, 9, none, "d", false, none, none⟩ "g()"
    (fun _ => []) 3 [] "V" rfl rfl (by decide) rfl rfl rfl rfl
  exact ⟨h.1, h.2.2.2.2.1, h.2.2.2.2.2.1⟩

/-- C2: for a key with no cached entry and `wait=true` the invocation
returns the real value, never the default, provided the computation
delivers a value within the lock's lifetime.  If admitted by the
conditional-set, the recompute runs synchronously in-line and its result
is returned (round-tripped through the serializer pair), with the
`Default` counter untouched.  If not admitted, the invocation polls —
re-reading the value while the lock exists, one `Sleep` increment and
one one-second sleep per iteration — and once the value appears in the
shared store after `n + 1` seconds of lock-covered waiting, it returns
that value, having slept `n + 1` times, again leaving `Default`
untouched. -/
theorem c2_wait_blocks_for_value (cfg : CacheCfg) (fres : Except Unit String) (key : String)
    (env : Nat → Store) (fuel : Nat) (s : Store) (v : String)
    (he : cfg.enabled = true) (hkey : key ∉ STATS) (hv : s.get key = none)
    (hw : cfg.wait = true) :
    (s.get (lockKey key) = none → fres = .ok v →
      applySer cfg.deserializer (applySer cfg.serializer v) = v →
      (wrapper cfg fres key env fuel s).result = .ok v
      ∧ (wrapper cfg fres key env fuel s).waitedInline = true
      ∧ (wrapper cfg fres key env fuel s).store.get DEFAULT = s.get DEFAULT)
    ∧ (∀ (lv v' : String) (n : Nat), s.get (lockKey key) = some lv →
      (∀ i, i ≤ n → ((env i).get (lockKey key)).isSome = true) →
      (∀ i, i < n → (env (i + 1)).get key = none) →
      (env (n + 1)).get key = some v' →
      n < fuel →
      (wrapper cfg fres key env fuel s).result = .ok (applySer cfg.deserializer v')
      ∧ (wrapper cfg fres key env fuel s).sleeps = n + 1
      ∧ (wrapper cfg fres key env fuel s).ops.count (Op.incr SLEEP) = n + 1
      ∧ (wrapper cfg fres key env fuel s).store.get DEFAULT = s.get DEFAULT) := by
  constructor
  · intro hlock hfres hrt
    subst hfres
    rw [wrapper_sync_missing cfg (.ok v) key env fuel s he hv hlock hw]
    refine ⟨?_, rfl, ?_⟩
    · rw [refreshvalue_value]
      exact congrArg Except.ok hrt
    · rw [refreshvalue_ok_get_stat _ _ _ _ DEFAULT (by decide) hkey (by decide),
        get_incr_stat_stat _ _ _ (by decide), get_set_lock_stat _ _ _ _ (by decide),
        get_incr_stat_stat _ _ _ (by decide)]
  · intro lv v' n hl h1 h2 h3 hfuel
    rw [wrapper_poll cfg fres key env fuel s lv he hv hl hw]
    have hf := pollLoop_finds key env v' n 0 fuel (s.incr MISSED)
      (by intro i hi; rw [Nat.zero_add]; exact h1 i hi)
      (by intro i hi; rw [Nat.zero_add]; exact h2 i hi)
      (by rw [Nat.zero_add]; exact h3) hfuel
    refine ⟨by simp [hf.1], by simp [hf.2.1], ?_, ?_⟩
    · have hne : Op.incr MISSED ≠ Op.incr SLEEP := by decide
      simp [hf.1, List.count_append, List.count_cons, List.count_nil, hne,
        pollLoop_sleep_count key env fuel 0 (s.incr MISSED), hf.2.1]
    · have hst : (match (pollLoop key env 0 fuel (s.incr MISSED)).found with
          | some _ => (pollLoop key env 0 fuel (s.incr MISSED)).store
          | none => (pollLoop key env 0 fuel (s.incr MISSED)).store.incr DEFAULT)
          = (pollLoop key env 0 fuel (s.incr MISSED)).store := by rw [hf.1]
      rw [hst, hf.2.2, get_iterate_incr_sleep _ _ _ (by decide),
        get_incr_stat_stat _ _ _ (by decide)]

theorem c2_wait_blocks_for_value_witness :
    (wrapper ⟨true, 5, 9, none, "d", true, none, none⟩ (.ok "V") "f()" (fun _ => []) 3
        []).result = .ok "V"
    ∧ (wrapper ⟨true, 5, 9, none, "d", true, none, none⟩ (.ok "X") "f()"
        (fun t => if t ≤ 1 then [(".f()", "1")] else [("f()", "VAL"), (".f()", "1")]) 7
        [(".f()", "1")]).result = .ok "VAL"
    ∧ (wrapper ⟨true, 5, 9, none, "d", true, none, none⟩ (.ok "X") "f()"
        (fun t => if t ≤ 1 then [(".f()", "1")] else [("f()", "VAL"), (".f()", "1")]) 7
        [(".f()", "1")]).sleeps = 2 := by
  have ha := (c2_wait_blocks_for_value ⟨true, 5, 9, none, "d", true, none, none⟩ (.ok "V")
    "f()" (fun _ => []) 3 [] "V" rfl (by decide) rfl rfl).1 rfl rfl rfl
  have hb := (c2_wait_blocks_for_value ⟨true, 5, 9, none, "d", true, none, none⟩ (.ok "X")
    "f()" (fun t => if t ≤ 1 then [(".f()", "1")] else [("f()", "VAL"), (".f()", "1")]) 7
    [(".f()", "1")] "X" rfl (by decide) rfl rfl).2 "1" "VAL" 1 rfl
    (by intro i hi; interval_cases i <;> rfl)
    (by intro i hi; interval_cases i; rfl)
    rfl (by decide)
  exact ⟨ha.1, hb.1, hb.2.1⟩

/-- Classification of every store command one invocation issues: a command
on the Refresh Lock key is the admission conditional-set, the recompute's
unconditional re-set, or a read; and nothing is ever deleted. -/
theorem wrapper_ops_classified (cfg : CacheCfg) (fres : Except Unit String) (key : String)
    (env : Nat → Store) (fuel : Nat) (s : Store) :
    ∀ op ∈ (wrapper cfg fres key env fuel s).ops,
      ((∃ b, op = Op.setnx (lockKey key) "1" (lockTtl cfg) b)
        ∨ op = Op.set (lockKey key) "1" (some cfg.refresh)
        ∨ op = Op.get (lockKey key)
        ∨ op.key ≠ lockKey key)
      ∧ op.isDel = false := by
  have hkne : (Op.get key).key ≠ lockKey key := Ne.symm (lockKey_ne_self key)
  have hstat : ∀ st, st ∈ STATS → (Op.incr st).key ≠ lockKey key :=
    fun st h => stat_ne_lockKey st h key
  have hrefresh : ∀ s' op, op ∈ (refreshvalue cfg fres key s').ops →
      ((∃ b, op = Op.setnx (lockKey key) "1" (lockTtl cfg) b)
        ∨ op = Op.set (lockKey key) "1" (some cfg.refresh)
        ∨ op = Op.get (lockKey key)
        ∨ op.key ≠ lockKey key)
      ∧ op.isDel = false := by
    intro s' op hop
    refine ⟨?_, refreshvalue_no_del cfg fres key s' op hop⟩
    by_cases hk : op.key = lockKey key
    · exact .inr (.inl (refreshvalue_lock_ops cfg fres key s' op hop hk))
    · exact .inr (.inr (.inr hk))
  by_cases he : cfg.enabled = true
  · by_cases hlock : s.get (lockKey key) = none
    · cases hv : s.get key with
      | some v =>
        by_cases htw : (truthy (some v) || !cfg.wait) = true
        · rw [wrapper_detached_cached cfg fres key env fuel s v he hv hlock htw]
          intro op hop
          simp at hop
          rcases hop with rfl | rfl | rfl
          · exact ⟨.inr (.inr (.inr hkne)), rfl⟩
          · exact ⟨.inr (.inr (.inr (hstat SUCCESS (by decide)))), rfl⟩
          · exact ⟨.inl ⟨true, rfl⟩, rfl⟩
        · have ht : truthy (some v) = false ∧ cfg.wait = true := by
            constructor
            · revert htw; cases h : truthy (some v) <;> simp
            · revert htw; cases h : cfg.wait <;> simp
          have hv0 : v = "" := by
            have := ht.1; simpa [truthy] using this
          subst hv0
          rw [wrapper_sync_empty cfg fres key env fuel s he hv hlock ht.2]
          intro op hop
          rcases List.mem_append.mp hop with h | h
          · simp at h
            rcases h with rfl | rfl | rfl | rfl
            · exact ⟨.inr (.inr (.inr hkne)), rfl⟩
            · exact ⟨.inr (.inr (.inr (hstat SUCCESS (by decide)))), rfl⟩
            · exact ⟨.inl ⟨true, rfl⟩, rfl⟩
            · exact ⟨.inr (.inr (.inr (hstat WAIT (by decide)))), rfl⟩
          · exact hrefresh _ op h
      | none =>
        by_cases hw : cfg.wait = true
        · rw [wrapper_sync_missing cfg fres key env fuel s he hv hlock hw]
          intro op hop
          rcases List.mem_append.mp hop with h | h
          · simp at h
            rcases h with rfl | rfl | rfl | rfl
            · exact ⟨.inr (.inr (.inr hkne)), rfl⟩
            · exact ⟨.inr (.inr (.inr (hstat MISSED (by decide)))), rfl⟩
            · exact ⟨.inl ⟨true, rfl⟩, rfl⟩
            · exact ⟨.inr (.inr (.inr (hstat WAIT (by decide)))), rfl⟩
          · exact hrefresh _ op h
        · have hw' : cfg.wait = false := by revert hw; cases cfg.wait <;> simp
          rw [wrapper_detached_missing cfg fres key env fuel s he hv hlock hw']
          intro op hop
          simp at hop
          rcases hop with rfl | rfl | rfl | rfl
          · exact ⟨.inr (.inr (.inr hkne)), rfl⟩
          · exact ⟨.inr (.inr (.inr (hstat MISSED (by decide)))), rfl⟩
          · exact ⟨.inl ⟨true, rfl⟩, rfl⟩
          · exact ⟨.inr (.inr (.inr (hstat DEFAULT (by decide)))), rfl⟩
    · obtain ⟨lv, hl⟩ := Option.ne_none_iff_exists'.mp hlock
      cases hv : s.get key with
      | some v =>
        rw [wrapper_skip_cached cfg fres key env fuel s v lv he hv hl]
        intro op hop
        simp at hop
        rcases hop with rfl | rfl | rfl
        · exact ⟨.inr (.inr (.inr hkne)), rfl⟩
        · exact ⟨.inr (.inr (.inr (hstat SUCCESS (by decide)))), rfl⟩
        · exact ⟨.inl ⟨false, rfl⟩, rfl⟩
      | none =>
        by_cases hw : cfg.wait = true
        · rw [wrapper_poll cfg fres key env fuel s lv he hv hl hw]
          intro op hop
          rcases List.mem_append.mp hop with h | h
          · rcases List.mem_append.mp h with h' | h'
            · simp at h'
              rcases h' with rfl | rfl | rfl
              · exact ⟨.inr (.inr (.inr hkne)), rfl⟩
              · exact ⟨.inr (.inr (.inr (hstat MISSED (by decide)))), rfl⟩
              · exact ⟨.inl ⟨false, rfl⟩, rfl⟩
            · rcases pollLoop_ops_shape key env fuel 0 (s.incr MISSED) op h' with rfl | rfl | rfl
              · exact ⟨.inr (.inr (.inl rfl)), rfl⟩
              · exact ⟨.inr (.inr (.inr (hstat SLEEP (by decide)))), rfl⟩
              · exact ⟨.inr (.inr (.inr hkne)), rfl⟩
          · rcases hfo : (pollLoop key env 0 fuel (s.incr MISSED)).found with _ | w
            · rw [hfo] at h
              simp at h
              subst h
              exact ⟨.inr (.inr (.inr (hstat DEFAULT (by decide)))), rfl⟩
            · rw [hfo] at h
              simp at h
        · have hw' : cfg.wait = false := by revert hw; cases cfg.wait <;> simp
          rw [wrapper_skip_missing_nowait cfg fres key env fuel s lv he hv hl hw']
          intro op hop
          simp at hop
          rcases hop with rfl | rfl | rfl | rfl
          · exact ⟨.inr (.inr (.inr hkne)), rfl⟩
          · exact ⟨.inr (.inr (.inr (hstat MISSED (by decide)))), rfl⟩
          · exact ⟨.inl ⟨false, rfl⟩, rfl⟩
          · exact ⟨.inr (.inr (.inr (hstat DEFAULT (by decide)))), rfl⟩
  · have he' : cfg.enabled = false := by revert he; cases cfg.enabled <;> simp
    rw [wrapper_disabled cfg fres key env fuel s he']
    intro op hop
    simp at hop

/-- C6 counterexample: with `retry` configured as 0, the admission
conditional-set is issued with TTL = `refresh` (here 7), not TTL =
`retry` (0): Python's `ex=retry if retry else refresh` treats a zero
`retry` as unconfigured. -/
theorem c6_counterexample :
    Op.setnx (lockKey "f()") "1" 7 true
      ∈ (wrapper ⟨true, 7, 20, some 0, "", false, none, none⟩ (.ok "v") "f()"
          (fun _ => []) 0 []).ops
    ∧ ∀ b, Op.setnx (lockKey "f()") "1" 0 b
        ∉ (wrapper ⟨true, 7, 20, some 0, "", false, none, none⟩ (.ok "v") "f()"
            (fun _ => []) 0 []).ops := by
  constructor
  · decide
  · decide

/-- C6 (amended): the Refresh Lock entry is only ever created or re-set,
never deleted, by any coordinator operation.  Every command an
invocation issues on `"." + key` is the admission conditional-set
(create-only-if-absent) with TTL = `retry` if `retry` is configured and
nonzero, else `refresh`; the unconditional re-set at the end of a
recompute with TTL = `refresh`; or a plain read.  An invocation never
issues DEL at all, the recompute procedure's only lock-key command is
the TTL-`refresh` re-set and it never issues DEL either, and `get_stats`
never touches a lock key — so the entry disappears only by TTL expiry. -/
theorem c6_lock_lifecycle (cfg : CacheCfg) (fres : Except Unit String) (key : String)
    (env : Nat → Store) (fuel : Nat) (s : Store) :
    (∀ op ∈ (wrapper cfg fres key env fuel s).ops, op.key = lockKey key →
      (∃ b, op = Op.setnx (lockKey key) "1" (lockTtl cfg) b)
      ∨ op = Op.set (lockKey key) "1" (some cfg.refresh)
      ∨ op = Op.get (lockKey key))
    ∧ (∀ op ∈ (wrapper cfg fres key env fuel s).ops, op.isDel = false)
    ∧ (∀ s' : Store, ∀ op ∈ (refreshvalue cfg fres key s').ops, op.key = lockKey key →
        op = Op.set (lockKey key) "1" (some cfg.refresh))
    ∧ (∀ s' : Store, ∀ op ∈ (refreshvalue cfg fres key s').ops, op.isDel = false)
    ∧ (∀ (d : Bool) (s' : Store), ∀ op ∈ (get_stats d s').ops, op.key ≠ lockKey key) := by
  refine ⟨?_, ?_, refreshvalue_lock_ops cfg fres key, refreshvalue_no_del cfg fres key, ?_⟩
  · intro op hop hk
    rcases (wrapper_ops_classified cfg fres key env fuel s op hop).1 with h | h | h | h
    · exact .inl h
    · exact .inr (.inl h)
    · exact .inr (.inr h)
    · exact absurd hk h
  · exact fun op hop => (wrapper_ops_classified cfg fres key env fuel s op hop).2
  · intro d s' op hop
    cases d with
    | true =>
      simp [get_stats] at hop
      rcases hop with ⟨st, hst, rfl⟩ | ⟨st, hst, rfl⟩
      · exact stat_ne_lockKey st (by simpa [STATS] using hst) key
      · exact stat_ne_lockKey st (by simpa [STATS] using hst) key
    | false =>
      simp [get_stats] at hop
      rcases hop with ⟨st, hst, rfl⟩
      exact stat_ne_lockKey st (by simpa [STATS] using hst) key

theorem c6_lock_lifecycle_witness :
    (Op.get "f()").isDel = false
    ∧ (Op.get "Refresh").key ≠ lockKey "f()" := by
  refine ⟨?_, ?_⟩
  · exact (c6_lock_lifecycle ⟨true, 7, 20, none, "", false, none, none⟩ (.ok "v") "f()"
      (fun _ => []) 0 []).2.1 (Op.get "f()") (by decide)
  · exact (c6_lock_lifecycle ⟨true, 7, 20, none, "", false, none, none⟩ (.ok "v") "f()"
      (fun _ => []) 0 []).2.2.2.2 true [] (Op.get "Refresh") (by decide)
